import Mathlib

/-!
Verification of the DetectionEngineering core against its specification.

The repository has two components:
* `src/Python/mitre.py` — extracts "attack-pattern" objects from a STIX
  bundle into a catalog keyed by technique id (`parse_attack_pattern` and
  the mapping loop of `main`, embedded here as `buildCatalog`);
* `src/Python/validation/validation.py` — checks a TOML-like config
  document for required fields conditioned on the declared rule type
  (`get_required_fields`, `validate_alert_config`).

Python's dynamic data is embedded as the inductive `Value` below.  Where a
claim depends on Python's dynamic-typing failure modes (iterating a
non-iterable, calling `.get` on a non-dict) these are modelled explicitly
with `PyErr`; inside `parse_attack_pattern` the embedding follows the
spec's data model (§3): `external_references`, when present, is a sequence
of objects whose `external_id`, when present, is a string.
-/

set_option autoImplicit false

namespace DetectionEngineering

/-- A JSON/TOML-like dynamic value, mirroring the deserialized data the
Python scripts manipulate.  `Value.null` stands for Python `None`. -/
inductive Value : Type where
  | null : Value
  | bool : Bool → Value
  | int : Int → Value
  | str : String → Value
  | list : List Value → Value
  | dict : List (String × Value) → Value

/-- First-match association-list lookup, the semantics of `d[k]` /
`k in d` on a Python dict (whose keys are unique, so first-match agrees
with the dict). -/
def assocFind? {α : Type} : List (String × α) → String → Option α
  | [], _ => none
  | (k, v) :: rest, key => if k = key then some v else assocFind? rest key

/-- Python `key in v` / `v[key]` on a dict value; non-dicts hold no keys. -/
def Value.lookup? : Value → String → Option Value
  | .dict kvs, key => assocFind? kvs key
  | _, _ => none

/-- Python `v.get(key, d)`. -/
def Value.getD (v : Value) (key : String) (d : Value) : Value :=
  (v.lookup? key).getD d

/-- Python `s.startswith("T")`: the first character is `'T'`. -/
def startsWithT (s : String) : Bool :=
  match s.data with
  | [] => false
  | c :: _ => c = 'T'

/-- Python `v == "lit"` where `lit` is a string literal: values of any
other runtime type compare unequal. -/
def valueEqStr : Value → String → Bool
  | .str s, t => s = t
  | _, _ => false

/-! ## mitre.py -/

/-- The reference scan of `parse_attack_pattern` (mitre.py lines 46-50):
walk `external_references` in order and stop at the first reference whose
`external_id` is present and starts with `"T"`, returning that id and the
same reference's `url` (`ref.get('url')`). -/
def findTRef : List Value → Option (String × Option Value)
  | [] => none
  | ref :: rest =>
    match Value.lookup? ref "external_id" with
    | some (.str eid) =>
      if startsWithT eid then some (eid, Value.lookup? ref "url")
      else findTRef rest
    | _ => findTRef rest

/-- A reference qualifying as a T-id carrier: `external_id` present and
starting with `"T"`. -/
def isTRef (ref : Value) : Bool :=
  match Value.lookup? ref "external_id" with
  | some (.str eid) => startsWithT eid
  | _ => false

/-- The tactics extraction of `parse_attack_pattern` (mitre.py lines
56-59): `phase_name` of every `kill_chain_phases` entry that has one,
source order preserved. -/
def extractTactics (o : Value) : List Value :=
  match Value.getD o "kill_chain_phases" (.list []) with
  | .list phases => phases.filterMap (fun tac => Value.lookup? tac "phase_name")
  | _ => []

/-- The technique search of `parse_attack_pattern` (mitre.py lines
41-50): scan `external_references` when the key is present (the spec's
data model makes its value a sequence), otherwise leave `technique_id`
as `None`. -/
def findTechnique (attack_pattern_obj : Value) : Option (String × Option Value) :=
  match Value.lookup? attack_pattern_obj "external_references" with
  | some (.list refs) => findTRef refs
  | _ => none

/-- `parse_attack_pattern` (mitre.py lines 30-70).  Returns `none` where
the Python returns `None` (no qualifying reference, or — via the
truthiness test `if not technique_id` — an empty id).  The record is the
literal dict built at lines 64-70; a `url` absent from the chosen
reference becomes `Value.null` (Python `None` from `ref.get('url')`). -/
def parse_attack_pattern (attack_pattern_obj : Value) : Option Value :=
  match findTechnique attack_pattern_obj with
  | none => none
  | some (technique_id, technique_url) =>
    if technique_id = "" then none
    else
      some (.dict [
        ("tactics", .list (extractTactics attack_pattern_obj)),
        ("technique", .str technique_id),
        ("name", Value.getD attack_pattern_obj "name" (.str "N/A")),
        ("url", technique_url.getD .null),
        ("deprecated", Value.getD attack_pattern_obj "x_mitre_deprecated" (.bool false))])

/-- Dynamic-typing failures the bundle loop can hit. -/
inductive PyErr : Type where
  | typeError : PyErr
  | attributeError : PyErr

/-- Python `for x in v`: lists yield their elements, strings yield their
characters as one-character strings, dicts yield their keys; every other
value raises `TypeError`. -/
def pyIter : Value → Except PyErr (List Value)
  | .list xs => .ok xs
  | .str s => .ok (s.data.map (fun c => .str (String.mk [c])))
  | .dict kvs => .ok (kvs.map (fun kv => .str kv.1))
  | _ => .error .typeError

/-- Python `v.get(key)`: raises `AttributeError` unless `v` is a dict. -/
def pyGet : Value → String → Except PyErr (Option Value)
  | .dict kvs, key => .ok (assocFind? kvs key)
  | _, _ => .error .attributeError

/-- The catalog `mitre_mapped`: a Python dict from technique id to parsed
record, insertion-ordered. -/
abbrev Catalog := List (String × Value)

/-- Python `m[key] = v` on a dict: overwrite in place when the key exists,
append otherwise. -/
def dictInsert : Catalog → String → Value → Catalog
  | [], key, v => [(key, v)]
  | (k, w) :: rest, key, v =>
    if k = key then (k, v) :: rest else (k, w) :: dictInsert rest key v

/-- The key the source uses for the catalog: `parsed_object['technique']`
(always a string by construction of the record). -/
def recTechnique (rec : Value) : String :=
  match Value.lookup? rec "technique" with
  | some (.str tid) => tid
  | _ => ""

/-- One iteration of the mapping loop in `main` (mitre.py lines 83-88):
skip objects whose `type` is not `"attack-pattern"`, parse the rest, and
insert each truthy (hence `some`) record under its technique id. -/
def buildCatalogStep (m : Catalog) (obj : Value) : Except PyErr Catalog :=
  match pyGet obj "type" with
  | .error e => .error e
  | .ok t =>
    match t with
    | some (.str s) =>
      if s = "attack-pattern" then
        match parse_attack_pattern obj with
        | some rec => .ok (dictInsert m (recTechnique rec) rec)
        | none => .ok m
      else .ok m
    | _ => .ok m

/-- The for-loop of `main` threaded over the object sequence. -/
def buildCatalogLoop : Catalog → List Value → Except PyErr Catalog
  | m, [] => .ok m
  | m, obj :: rest =>
    match buildCatalogStep m obj with
    | .error e => .error e
    | .ok m2 => buildCatalogLoop m2 rest

/-- The catalog construction of `main` (mitre.py lines 81-88):
`mitre_data.get('objects', [])` iterated Python-style into
`mitre_mapped`. -/
def buildCatalog (mitre_data : Value) : Except PyErr Catalog :=
  match pyIter (Value.getD mitre_data "objects" (.list [])) with
  | .error e => .error e
  | .ok objs => buildCatalogLoop [] objs

/-! ## validation.py -/

/-- One top-level table of the config document. -/
abbrev Table := List (String × Value)

/-- The config document per the spec's data model (§3): a mapping from
table name to a mapping of field name to value. -/
abbrev Config := List (String × Table)

/-- `base_fields` (validation.py line 25). -/
def base_fields : List String :=
  ["description", "name", "risk_score", "severity", "type"]

/-- `get_required_fields` (validation.py lines 21-35).  The argument is
the raw `rule.type` value; Python's `==` against a string literal is
false for non-strings, landing them in the else branch. -/
def get_required_fields (rule_type : Value) : List String :=
  if valueEqStr rule_type "query" then base_fields ++ ["query"]
  else if valueEqStr rule_type "eql" then base_fields ++ ["query", "language"]
  else if valueEqStr rule_type "threshold" then base_fields ++ ["query", "threshold"]
  else base_fields

/-- True exactly when `get_required_fields` takes its else branch, i.e.
when the source prints the unknown-rule-type warning (line 34). -/
def unknown_rule_type_warning (rule_type : Value) : Bool :=
  !valueEqStr rule_type "query" && !valueEqStr rule_type "eql" &&
    !valueEqStr rule_type "threshold"

/-- The field-presence union of validation.py lines 50-52: every key of
every top-level table.  The Python `set` is only ever queried for
membership, so the concatenated key list is an equivalent model. -/
def presentFields (alert_config : Config) : List String :=
  (alert_config.map (fun t => t.2.map Prod.fst)).flatten

/-- The validation outcome: report returned, or the fatal structural
error (`sys.exit(1)` at validation.py line 44). -/
inductive ValidationError : Type where
  | missingRuleDeclaration : ValidationError

/-- The report the spec assigns to `validate`: identifier plus the
ordered missing-field list the source computes (and prints) at lines
54-59. -/
structure ValidationReport : Type where
  file_identifier : String
  missing_fields : List String

/-- `validate_alert_config` (validation.py lines 37-59). -/
def validate_alert_config (alert_config : Config) (file_path : String) :
    Except ValidationError ValidationReport :=
  match assocFind? alert_config "rule" with
  | none => .error .missingRuleDeclaration
  | some rule =>
    match assocFind? rule "type" with
    | none => .error .missingRuleDeclaration
    | some rule_type =>
      let required_fields := get_required_fields rule_type
      let missing_fields :=
        required_fields.filter (fun field => !(presentFields alert_config).contains field)
      .ok ⟨file_path, missing_fields⟩

/-- The spec's worked validation example (§8): a config whose single
`rule` table declares type `"query"` and carries every base field but no
`query` field. -/
def exampleAlertConfig : Config :=
  [("rule", [("type", .str "query"), ("name", .str "X"), ("description", .str "d"),
             ("risk_score", .int 1), ("severity", .str "low")])]

/-! ## Helper lemmas -/

theorem startsWithT_ne_empty (s : String) (h : startsWithT s = true) : s ≠ "" := by
  intro hs
  subst hs
  simp [startsWithT] at h

theorem isTRef_elim (r : Value) (h : isTRef r = true) :
    ∃ eid, Value.lookup? r "external_id" = some (.str eid) ∧ startsWithT eid = true := by
  unfold isTRef at h
  split at h
  · next eid heq => exact ⟨eid, heq, h⟩
  · cases h

theorem findTRef_skip (ref : Value) (rest : List Value) (h : isTRef ref = false) :
    findTRef (ref :: rest) = findTRef rest := by
  cases heq : Value.lookup? ref "external_id" with
  | none => simp [findTRef, heq]
  | some v =>
    cases v with
    | str eid =>
      unfold isTRef at h
      rw [heq] at h
      simp only [] at h
      simp [findTRef, heq, h]
    | null => simp [findTRef, heq]
    | bool b => simp [findTRef, heq]
    | int n => simp [findTRef, heq]
    | list xs => simp [findTRef, heq]
    | dict kvs => simp [findTRef, heq]

theorem findTRef_skipAll (pre rest : List Value) (h : ∀ x ∈ pre, isTRef x = false) :
    findTRef (pre ++ rest) = findTRef rest := by
  induction pre with
  | nil => rfl
  | cons p ps ih =>
    rw [List.cons_append, findTRef_skip p (ps ++ rest) (h p (List.mem_cons_self p ps))]
    exact ih (fun x hx => h x (List.mem_cons_of_mem p hx))

theorem findTRef_none (refs : List Value) (h : ∀ r ∈ refs, isTRef r = false) :
    findTRef refs = none := by
  have := findTRef_skipAll refs [] h
  rwa [List.append_nil] at this

theorem findTRef_cons_hit (ref : Value) (rest : List Value) (eid : String)
    (hid : Value.lookup? ref "external_id" = some (.str eid))
    (hT : startsWithT eid = true) :
    findTRef (ref :: rest) = some (eid, Value.lookup? ref "url") := by
  unfold findTRef
  rw [hid]
  simp [hT]

theorem findTRef_startsWithT (refs : List Value) (tid : String) (u : Option Value)
    (h : findTRef refs = some (tid, u)) : startsWithT tid = true := by
  induction refs with
  | nil => simp [findTRef] at h
  | cons ref rest ih =>
    unfold findTRef at h
    split at h
    · next eid heq =>
      by_cases hT : startsWithT eid = true
      · rw [if_pos hT] at h
        injection h with h
        injection h with h1 h2
        rw [← h1]
        exact hT
      · rw [if_neg hT] at h
        exact ih h
    · exact ih h

theorem findTechnique_startsWithT (o : Value) (tid : String) (u : Option Value)
    (h : findTechnique o = some (tid, u)) : startsWithT tid = true := by
  unfold findTechnique at h
  split at h
  · next refs heq => exact findTRef_startsWithT refs tid u h
  · cases h

theorem parse_eq_record (o : Value) (tid : String) (u : Option Value)
    (hfound : findTechnique o = some (tid, u)) (hne : tid ≠ "") :
    parse_attack_pattern o = some (.dict [
      ("tactics", .list (extractTactics o)),
      ("technique", .str tid),
      ("name", Value.getD o "name" (.str "N/A")),
      ("url", u.getD .null),
      ("deprecated", Value.getD o "x_mitre_deprecated" (.bool false))]) := by
  unfold parse_attack_pattern
  rw [hfound]
  simp [hne]

theorem parse_some_inv (o rec : Value) (h : parse_attack_pattern o = some rec) :
    ∃ tid u, findTechnique o = some (tid, u) ∧ tid ≠ "" ∧
      rec = .dict [
        ("tactics", .list (extractTactics o)),
        ("technique", .str tid),
        ("name", Value.getD o "name" (.str "N/A")),
        ("url", u.getD .null),
        ("deprecated", Value.getD o "x_mitre_deprecated" (.bool false))] := by
  unfold parse_attack_pattern at h
  split at h
  · cases h
  · next tid u heq =>
    by_cases hne : tid = ""
    · rw [if_pos hne] at h
      cases h
    · rw [if_neg hne] at h
      injection h with h
      exact ⟨tid, u, heq, hne, h.symm⟩

theorem parse_record_props (o rec : Value) (h : parse_attack_pattern o = some rec) :
    Value.lookup? rec "technique" = some (.str (recTechnique rec)) ∧
    startsWithT (recTechnique rec) = true ∧ recTechnique rec ≠ "" ∧
    ∃ w, Value.lookup? rec "url" = some w := by
  obtain ⟨tid, u, hfound, hne, rfl⟩ := parse_some_inv o rec h
  have hT := findTechnique_startsWithT o tid u hfound
  have hlt : Value.lookup? (Value.dict [
      ("tactics", .list (extractTactics o)),
      ("technique", .str tid),
      ("name", Value.getD o "name" (.str "N/A")),
      ("url", u.getD .null),
      ("deprecated", Value.getD o "x_mitre_deprecated" (.bool false))]) "technique" =
      some (.str tid) := by
    simp [Value.lookup?, assocFind?]
  have hrt : recTechnique (Value.dict [
      ("tactics", .list (extractTactics o)),
      ("technique", .str tid),
      ("name", Value.getD o "name" (.str "N/A")),
      ("url", u.getD .null),
      ("deprecated", Value.getD o "x_mitre_deprecated" (.bool false))]) = tid := by
    unfold recTechnique
    rw [hlt]
  rw [hrt, hlt]
  refine ⟨rfl, hT, hne, u.getD .null, ?_⟩
  simp [Value.lookup?, assocFind?]

theorem lookup?_some_dict (v : Value) (k : String) (w : Value)
    (h : Value.lookup? v k = some w) : ∃ kvs, v = .dict kvs := by
  cases v with
  | dict kvs => exact ⟨kvs, rfl⟩
  | null => simp [Value.lookup?] at h
  | bool b => simp [Value.lookup?] at h
  | int n => simp [Value.lookup?] at h
  | str s => simp [Value.lookup?] at h
  | list xs => simp [Value.lookup?] at h

theorem pyGet_ok_lookup (o : Value) (k : String) (t : Option Value)
    (h : pyGet o k = .ok t) : Value.lookup? o k = t := by
  cases o with
  | dict kvs =>
    simp [pyGet] at h
    simpa [Value.lookup?] using h
  | null => simp [pyGet] at h
  | bool b => simp [pyGet] at h
  | int n => simp [pyGet] at h
  | str s => simp [pyGet] at h
  | list xs => simp [pyGet] at h

theorem dictInsert_lookup_self (m : Catalog) (key : String) (v : Value) :
    assocFind? (dictInsert m key v) key = some v := by
  induction m with
  | nil => simp [dictInsert, assocFind?]
  | cons p rest ih =>
    obtain ⟨k, w⟩ := p
    unfold dictInsert
    by_cases hk : k = key
    · subst hk
      simp [assocFind?]
    · simp only [if_neg hk]
      simp [assocFind?, hk, ih]

theorem dictInsert_lookup_other (m : Catalog) (key k2 : String) (v : Value)
    (hne : k2 ≠ key) :
    assocFind? (dictInsert m key v) k2 = assocFind? m k2 := by
  induction m with
  | nil => simp [dictInsert, assocFind?, Ne.symm hne]
  | cons p rest ih =>
    obtain ⟨k, w⟩ := p
    unfold dictInsert
    by_cases hk : k = key
    · subst hk
      simp [assocFind?, Ne.symm hne]
    · simp only [if_neg hk]
      by_cases h2 : k = k2
      · subst h2
        simp [assocFind?]
      · simp [assocFind?, h2, ih]

theorem mem_dictInsert (m : Catalog) (key : String) (v : Value) (p : String × Value)
    (h : p ∈ dictInsert m key v) : p = (key, v) ∨ p ∈ m := by
  induction m with
  | nil =>
    simp [dictInsert] at h
    exact Or.inl h
  | cons q rest ih =>
    obtain ⟨k, w⟩ := q
    unfold dictInsert at h
    by_cases hk : k = key
    · subst hk
      rw [if_pos rfl] at h
      rcases List.mem_cons.mp h with h | h
      · exact Or.inl h
      · exact Or.inr (List.mem_cons_of_mem _ h)
    · rw [if_neg hk] at h
      rcases List.mem_cons.mp h with h | h
      · exact Or.inr (h ▸ List.mem_cons_self _ _)
      · rcases ih h with h2 | h2
        · exact Or.inl h2
        · exact Or.inr (List.mem_cons_of_mem _ h2)

theorem buildCatalogStep_attack (m : Catalog) (o rec : Value)
    (htype : Value.lookup? o "type" = some (.str "attack-pattern"))
    (hparse : parse_attack_pattern o = some rec) :
    buildCatalogStep m o = .ok (dictInsert m (recTechnique rec) rec) := by
  obtain ⟨kvs, rfl⟩ := lookup?_some_dict o "type" _ htype
  have hfind : assocFind? kvs "type" = some (.str "attack-pattern") := htype
  unfold buildCatalogStep
  simp [pyGet, hfind, hparse]

theorem buildCatalogStep_cases (m : Catalog) (o : Value) (m1 : Catalog)
    (h : buildCatalogStep m o = .ok m1) :
    m1 = m ∨ ∃ rec, Value.lookup? o "type" = some (.str "attack-pattern") ∧
      parse_attack_pattern o = some rec ∧ m1 = dictInsert m (recTechnique rec) rec := by
  unfold buildCatalogStep at h
  cases hg : pyGet o "type" with
  | error e =>
    rw [hg] at h
    cases h
  | ok t =>
    rw [hg] at h
    have hlk := pyGet_ok_lookup o "type" t hg
    cases t with
    | none =>
      simp at h
      exact Or.inl h.symm
    | some v =>
      cases v with
      | str s =>
        by_cases hs : s = "attack-pattern"
        · subst hs
          simp only [reduceIte] at h
          cases hp : parse_attack_pattern o with
          | none =>
            rw [hp] at h
            simp at h
            exact Or.inl h.symm
          | some rec =>
            rw [hp] at h
            simp at h
            exact Or.inr ⟨rec, hlk, rfl, h.symm⟩
        · simp [hs] at h
          exact Or.inl h.symm
      | null =>
        simp at h
        exact Or.inl h.symm
      | bool b =>
        simp at h
        exact Or.inl h.symm
      | int n =>
        simp at h
        exact Or.inl h.symm
      | list xs =>
        simp at h
        exact Or.inl h.symm
      | dict kvs =>
        simp at h
        exact Or.inl h.symm

theorem buildCatalogLoop_append (m : Catalog) (xs ys : List Value) (cat : Catalog)
    (h : buildCatalogLoop m (xs ++ ys) = .ok cat) :
    ∃ m2, buildCatalogLoop m xs = .ok m2 ∧ buildCatalogLoop m2 ys = .ok cat := by
  induction xs generalizing m with
  | nil => exact ⟨m, rfl, h⟩
  | cons o rest ih =>
    rw [List.cons_append] at h
    cases hstep : buildCatalogStep m o with
    | error e =>
      unfold buildCatalogLoop at h
      rw [hstep] at h
      cases h
    | ok m1 =>
      have h2 : buildCatalogLoop m1 (rest ++ ys) = .ok cat := by
        unfold buildCatalogLoop at h
        rwa [hstep] at h
      obtain ⟨m2, hm2, hys⟩ := ih m1 h2
      refine ⟨m2, ?_, hys⟩
      unfold buildCatalogLoop
      rw [hstep]
      exact hm2

theorem buildCatalogLoop_lookup_preserved (tid : String) (l : List Value)
    (m cat : Catalog)
    (h : buildCatalogLoop m l = .ok cat)
    (hl : ∀ o ∈ l, Value.lookup? o "type" = some (.str "attack-pattern") →
      ∀ rec, parse_attack_pattern o = some rec → recTechnique rec ≠ tid) :
    assocFind? cat tid = assocFind? m tid := by
  induction l generalizing m with
  | nil =>
    unfold buildCatalogLoop at h
    injection h with h
    rw [h]
  | cons o rest ih =>
    cases hstep : buildCatalogStep m o with
    | error e =>
      unfold buildCatalogLoop at h
      rw [hstep] at h
      cases h
    | ok m1 =>
      have h2 : buildCatalogLoop m1 rest = .ok cat := by
        unfold buildCatalogLoop at h
        rwa [hstep] at h
      have hrest := ih m1 h2 (fun y hy => hl y (List.mem_cons_of_mem o hy))
      rcases buildCatalogStep_cases m o m1 hstep with heq | ⟨rec, htype, hparse, heq⟩
      · rw [hrest, heq]
      · rw [hrest, heq,
          dictInsert_lookup_other m (recTechnique rec) tid rec
            (Ne.symm (hl o (List.mem_cons_self o rest) htype rec hparse))]

theorem buildCatalogLoop_eq_foldlM (l : List Value) (m : Catalog) :
    buildCatalogLoop m l = List.foldlM buildCatalogStep m l := by
  induction l generalizing m with
  | nil => rfl
  | cons o rest ih =>
    unfold buildCatalogLoop
    rw [List.foldlM_cons]
    cases hstep : buildCatalogStep m o with
    | error e => rfl
    | ok m1 => simpa [Except.bind] using ih m1

theorem assocFind?_mem {α : Type} (l : List (String × α)) (key : String) (v : α)
    (h : assocFind? l key = some v) : (key, v) ∈ l := by
  induction l with
  | nil => simp [assocFind?] at h
  | cons p rest ih =>
    obtain ⟨k, w⟩ := p
    unfold assocFind? at h
    by_cases hk : k = key
    · rw [if_pos hk] at h
      injection h with h
      rw [← hk, ← h]
      exact List.mem_cons_self _ _
    · rw [if_neg hk] at h
      exact List.mem_cons_of_mem _ (ih h)

theorem mem_presentFields (c : Config) (tname f : String) (tbl : Table)
    (htbl : (tname, tbl) ∈ c) (hf : f ∈ tbl.map Prod.fst) :
    f ∈ presentFields c := by
  unfold presentFields
  exact List.mem_flatten.mpr
    ⟨tbl.map Prod.fst, List.mem_map.mpr ⟨(tname, tbl), htbl, rfl⟩, hf⟩

/-- The record invariant of the spec (§3): every catalog entry is keyed
by its record's technique id, which starts with `"T"` and is
non-empty. -/
def catalogWellFormed (cat : Catalog) : Prop :=
  ∀ p ∈ cat, Value.lookup? p.2 "technique" = some (.str p.1) ∧
    startsWithT p.1 = true ∧ p.1 ≠ ""

theorem buildCatalogLoop_wf (l : List Value) (m cat : Catalog)
    (h : buildCatalogLoop m l = .ok cat) (hm : catalogWellFormed m) :
    catalogWellFormed cat := by
  induction l generalizing m with
  | nil =>
    unfold buildCatalogLoop at h
    injection h with h
    rw [← h]
    exact hm
  | cons o rest ih =>
    cases hstep : buildCatalogStep m o with
    | error e =>
      unfold buildCatalogLoop at h
      rw [hstep] at h
      cases h
    | ok m1 =>
      have h2 : buildCatalogLoop m1 rest = .ok cat := by
        unfold buildCatalogLoop at h
        rwa [hstep] at h
      refine ih m1 h2 ?_
      rcases buildCatalogStep_cases m o m1 hstep with heq | ⟨rec, _, hparse, heq⟩
      · rw [heq]
        exact hm
      · rw [heq]
        intro p hp
        rcases mem_dictInsert m _ rec p hp with hpe | hpm
        · obtain ⟨h1, h2, h3, _⟩ := parse_record_props o rec hparse
          rw [hpe]
          exact ⟨h1, h2, h3⟩
        · exact hm p hpm

theorem buildCatalog_ok_loop (bundle : Value) (objs : List Value) (cat : Catalog)
    (hobjs : Value.getD bundle "objects" (.list []) = .list objs)
    (hcat : buildCatalog bundle = .ok cat) :
    buildCatalogLoop [] objs = .ok cat := by
  unfold buildCatalog at hcat
  rw [hobjs] at hcat
  simpa [pyIter] using hcat

/-! ## Claim theorems -/

/-- C1: for every attack-pattern object whose `external_references`
contain two or more references with a T-prefixed `external_id`, the
produced record's technique id is the `external_id` of the first such
reference in document order and the candidate URL is taken from that
same reference; the references after the first match never influence the
result. -/
theorem first_T_reference_wins (o : Value) (pre post : List Value) (r : Value)
    (tid : String)
    (hrefs : Value.lookup? o "external_references" = some (.list (pre ++ r :: post)))
    (hpre : ∀ x ∈ pre, isTRef x = false)
    (hid : Value.lookup? r "external_id" = some (.str tid))
    (hT : startsWithT tid = true)
    (hlater : ∃ x ∈ post, isTRef x = true) :
    ∃ rec, parse_attack_pattern o = some rec ∧
      Value.lookup? rec "technique" = some (.str tid) ∧
      Value.lookup? rec "url" = some ((Value.lookup? r "url").getD .null) := by
  have hfind : findTechnique o = some (tid, Value.lookup? r "url") := by
    unfold findTechnique
    rw [hrefs]
    show findTRef (pre ++ r :: post) = some (tid, Value.lookup? r "url")
    rw [findTRef_skipAll pre (r :: post) hpre]
    exact findTRef_cons_hit r post tid hid hT
  refine ⟨_, parse_eq_record o tid (Value.lookup? r "url") hfind
    (startsWithT_ne_empty tid hT), ?_, ?_⟩
  · simp [Value.lookup?, assocFind?]
  · simp [Value.lookup?, assocFind?]

/-- C2: for a bundle containing two attack-pattern objects resolving to
the same technique id, the catalog maps that id to the record of the
later-processed object, and the catalog is the fold of the per-object
step over the bundle's object order (last-write-wins insertion). -/
theorem last_write_wins (bundle : Value) (xs ys : List Value) (o1 o2 rec1 rec2 : Value)
    (tid : String) (cat : Catalog)
    (hobjs : Value.getD bundle "objects" (.list []) = .list (xs ++ o2 :: ys))
    (ho1mem : o1 ∈ xs)
    (h1type : Value.lookup? o1 "type" = some (.str "attack-pattern"))
    (h1parse : parse_attack_pattern o1 = some rec1)
    (h1tid : recTechnique rec1 = tid)
    (h2type : Value.lookup? o2 "type" = some (.str "attack-pattern"))
    (h2parse : parse_attack_pattern o2 = some rec2)
    (h2tid : recTechnique rec2 = tid)
    (hys : ∀ y ∈ ys, Value.lookup? y "type" = some (.str "attack-pattern") →
      ∀ r, parse_attack_pattern y = some r → recTechnique r ≠ tid)
    (hcat : buildCatalog bundle = .ok cat) :
    assocFind? cat tid = some rec2 ∧
    buildCatalog bundle = List.foldlM buildCatalogStep [] (xs ++ o2 :: ys) := by
  have hloop := buildCatalog_ok_loop bundle (xs ++ o2 :: ys) cat hobjs hcat
  obtain ⟨m2, hxs, hrest⟩ := buildCatalogLoop_append [] xs (o2 :: ys) cat hloop
  have hstep : buildCatalogStep m2 o2 = .ok (dictInsert m2 tid rec2) := by
    have h := buildCatalogStep_attack m2 o2 rec2 h2type h2parse
    rwa [h2tid] at h
  have hys2 : buildCatalogLoop (dictInsert m2 tid rec2) ys = .ok cat := by
    unfold buildCatalogLoop at hrest
    rwa [hstep] at hrest
  constructor
  · rw [buildCatalogLoop_lookup_preserved tid ys _ cat hys2 hys,
      dictInsert_lookup_self]
  · rw [hcat, ← buildCatalogLoop_eq_foldlM]
    exact hloop.symm

/-- C3: every record in a successfully built catalog is keyed by its own
technique id, which starts with `"T"` and is non-empty; no parsed record
lacks such an id; and an attack-pattern object with no T-prefixed
external reference is dropped (parses to `none`), not an error. -/
theorem catalog_records_T_prefixed (bundle : Value) (cat : Catalog)
    (hcat : buildCatalog bundle = .ok cat) (o : Value)
    (hnoT : ∀ refs, Value.lookup? o "external_references" = some (.list refs) →
      ∀ r ∈ refs, isTRef r = false) :
    (∀ p ∈ cat, Value.lookup? p.2 "technique" = some (.str p.1) ∧
      startsWithT p.1 = true ∧ p.1 ≠ "") ∧
    (∀ o2 rec2, parse_attack_pattern o2 = some rec2 →
      Value.lookup? rec2 "technique" = some (.str (recTechnique rec2)) ∧
      startsWithT (recTechnique rec2) = true) ∧
    parse_attack_pattern o = none := by
  refine ⟨?_, ?_, ?_⟩
  · unfold buildCatalog at hcat
    cases hit : pyIter (Value.getD bundle "objects" (.list [])) with
    | error e =>
      rw [hit] at hcat
      cases hcat
    | ok objs =>
      rw [hit] at hcat
      exact buildCatalogLoop_wf objs [] cat hcat (fun p hp => absurd hp (List.not_mem_nil p))
  · intro o2 rec2 h2
    obtain ⟨ha, hb, _, _⟩ := parse_record_props o2 rec2 h2
    exact ⟨ha, hb⟩
  · have hfind : findTechnique o = none := by
      unfold findTechnique
      cases hl : Value.lookup? o "external_references" with
      | none => rfl
      | some v =>
        cases v with
        | list refs => exact findTRef_none refs (hnoT refs hl)
        | null => rfl
        | bool b => rfl
        | int n => rfl
        | str s => rfl
        | dict kvs => rfl
    unfold parse_attack_pattern
    rw [hfind]

/-- C10: every record `parse_attack_pattern` returns carries a `"url"`
key, and when the first T-prefixed reference has no `url` field the
record maps `"url"` to `Value.null` (Python `None`) rather than omitting
the key. -/
theorem url_key_always_present (o rec : Value)
    (hparse : parse_attack_pattern o = some rec)
    (pre post : List Value) (r : Value)
    (hrefs : Value.lookup? o "external_references" = some (.list (pre ++ r :: post)))
    (hpre : ∀ x ∈ pre, isTRef x = false)
    (hr : isTRef r = true)
    (hnourl : Value.lookup? r "url" = none) :
    (∀ o2 rec2, parse_attack_pattern o2 = some rec2 →
      (Value.lookup? rec2 "url").isSome = true) ∧
    Value.lookup? rec "url" = some .null := by
  constructor
  · intro o2 rec2 h2
    obtain ⟨_, _, _, w, hw⟩ := parse_record_props o2 rec2 h2
    simp [hw]
  · obtain ⟨eid, hid, hT⟩ := isTRef_elim r hr
    have hfind : findTechnique o = some (eid, none) := by
      unfold findTechnique
      rw [hrefs]
      show findTRef (pre ++ r :: post) = some (eid, none)
      rw [findTRef_skipAll pre (r :: post) hpre,
        findTRef_cons_hit r post eid hid hT, hnourl]
    obtain ⟨tid, u, hfound, _, hrec⟩ := parse_some_inv o rec hparse
    rw [hfind] at hfound
    injection hfound with hfound
    injection hfound with hfound1 hfound2
    rw [hrec, ← hfound2]
    simp [Value.lookup?, assocFind?]

/-- C5 (code divergence): an `objects` field that is present but an
empty mapping or an empty string — present, and not a sequence of
objects — makes the source return a silent empty catalog instead of
surfacing a malformed-bundle error; a non-iterable `objects` raises only
a generic `TypeError`, as no malformed-bundle error kind exists in the
code. -/
theorem malformed_objects_silently_empty :
    buildCatalog (.dict [("objects", .dict [])]) = .ok [] ∧
    buildCatalog (.dict [("objects", .str "")]) = .ok [] ∧
    buildCatalog (.dict [("objects", .int 5)]) = .error .typeError :=
  ⟨rfl, rfl, rfl⟩

/-- Concrete instance of the first-match tie-break: a CAPEC reference,
then two T-references; the technique id and url come from the earlier
T-reference. -/
theorem first_T_reference_wins_w :
    ∃ rec, parse_attack_pattern (.dict [("type", .str "attack-pattern"),
        ("name", .str "Phishing"),
        ("external_references", .list [
          .dict [("external_id", .str "CAPEC-163")],
          .dict [("external_id", .str "T1566"), ("url", .str "https://graph.test/one")],
          .dict [("external_id", .str "T9999"), ("url", .str "https://graph.test/two")]])]) =
        some rec ∧
      Value.lookup? rec "technique" = some (.str "T1566") ∧
      Value.lookup? rec "url" =
        some ((Value.lookup? (.dict [("external_id", .str "T1566"),
          ("url", .str "https://graph.test/one")]) "url").getD .null) :=
  first_T_reference_wins
    (.dict [("type", .str "attack-pattern"),
      ("name", .str "Phishing"),
      ("external_references", .list [
        .dict [("external_id", .str "CAPEC-163")],
        .dict [("external_id", .str "T1566"), ("url", .str "https://graph.test/one")],
        .dict [("external_id", .str "T9999"), ("url", .str "https://graph.test/two")]])])
    [.dict [("external_id", .str "CAPEC-163")]]
    [.dict [("external_id", .str "T9999"), ("url", .str "https://graph.test/two")]]
    (.dict [("external_id", .str "T1566"), ("url", .str "https://graph.test/one")])
    "T1566" rfl (by decide) rfl (by decide)
    ⟨.dict [("external_id", .str "T9999"), ("url", .str "https://graph.test/two")],
      List.mem_cons_self _ _, by decide⟩

/-- Concrete instance of last-write-wins: two attack-patterns with
technique id `T1110`; the catalog holds the second record. -/
theorem last_write_wins_w :
    assocFind? [("T1110", Value.dict [("tactics", .list []), ("technique", .str "T1110"),
        ("name", .str "New"), ("url", .null), ("deprecated", .bool false)])] "T1110" =
      some (Value.dict [("tactics", .list []), ("technique", .str "T1110"),
        ("name", .str "New"), ("url", .null), ("deprecated", .bool false)]) ∧
    buildCatalog (.dict [("objects", .list [
        .dict [("type", .str "attack-pattern"), ("name", .str "Old"),
          ("external_references", .list [.dict [("external_id", .str "T1110")]])],
        .dict [("type", .str "attack-pattern"), ("name", .str "New"),
          ("external_references", .list [.dict [("external_id", .str "T1110")]])]])]) =
      List.foldlM buildCatalogStep []
        ([.dict [("type", .str "attack-pattern"), ("name", .str "Old"),
          ("external_references", .list [.dict [("external_id", .str "T1110")]])]] ++
          .dict [("type", .str "attack-pattern"), ("name", .str "New"),
            ("external_references", .list [.dict [("external_id", .str "T1110")]])] :: []) :=
  last_write_wins
    (.dict [("objects", .list [
      .dict [("type", .str "attack-pattern"), ("name", .str "Old"),
        ("external_references", .list [.dict [("external_id", .str "T1110")]])],
      .dict [("type", .str "attack-pattern"), ("name", .str "New"),
        ("external_references", .list [.dict [("external_id", .str "T1110")]])]])])
    [.dict [("type", .str "attack-pattern"), ("name", .str "Old"),
      ("external_references", .list [.dict [("external_id", .str "T1110")]])]]
    []
    (.dict [("type", .str "attack-pattern"), ("name", .str "Old"),
      ("external_references", .list [.dict [("external_id", .str "T1110")]])])
    (.dict [("type", .str "attack-pattern"), ("name", .str "New"),
      ("external_references", .list [.dict [("external_id", .str "T1110")]])])
    (.dict [("tactics", .list []), ("technique", .str "T1110"),
      ("name", .str "Old"), ("url", .null), ("deprecated", .bool false)])
    (.dict [("tactics", .list []), ("technique", .str "T1110"),
      ("name", .str "New"), ("url", .null), ("deprecated", .bool false)])
    "T1110"
    [("T1110", Value.dict [("tactics", .list []), ("technique", .str "T1110"),
      ("name", .str "New"), ("url", .null), ("deprecated", .bool false)])]
    rfl (List.mem_cons_self _ _) rfl rfl rfl rfl rfl rfl
    (fun y hy => absurd hy (List.not_mem_nil y)) rfl

/-- Concrete instance of the catalog invariant and of dropping an
object (here with no `external_references` at all) without an error. -/
theorem catalog_records_T_prefixed_w :
    (∀ p ∈ ([("T1059", Value.dict [("tactics", .list []), ("technique", .str "T1059"),
        ("name", .str "Scripting"), ("url", .null), ("deprecated", .bool false)])] : Catalog),
      Value.lookup? p.2 "technique" = some (.str p.1) ∧
      startsWithT p.1 = true ∧ p.1 ≠ "") ∧
    (∀ o2 rec2, parse_attack_pattern o2 = some rec2 →
      Value.lookup? rec2 "technique" = some (.str (recTechnique rec2)) ∧
      startsWithT (recTechnique rec2) = true) ∧
    parse_attack_pattern (.dict []) = none :=
  catalog_records_T_prefixed
    (.dict [("objects", .list [.dict [("type", .str "attack-pattern"),
      ("name", .str "Scripting"),
      ("external_references", .list [.dict [("external_id", .str "T1059")]])]])])
    [("T1059", Value.dict [("tactics", .list []), ("technique", .str "T1059"),
      ("name", .str "Scripting"), ("url", .null), ("deprecated", .bool false)])]
    rfl (.dict [])
    (fun refs h => by simp [Value.lookup?, assocFind?] at h)

/-- Concrete instance of the url-key guarantee: the only reference has a
T-id but no url, and the record maps `"url"` to `Value.null`. -/
theorem url_key_always_present_w :
    (∀ o2 rec2, parse_attack_pattern o2 = some rec2 →
      (Value.lookup? rec2 "url").isSome = true) ∧
    Value.lookup? (Value.dict [("tactics", .list []), ("technique", .str "T1574"),
      ("name", .str "N/A"), ("url", .null), ("deprecated", .bool false)]) "url" =
      some .null :=
  url_key_always_present
    (.dict [("external_references", .list [.dict [("external_id", .str "T1574")]])])
    (.dict [("tactics", .list []), ("technique", .str "T1574"),
      ("name", .str "N/A"), ("url", .null), ("deprecated", .bool false)])
    rfl [] [] (.dict [("external_id", .str "T1574")]) rfl
    (fun x hx => absurd hx (List.not_mem_nil x)) (by decide) rfl

theorem validate_eq_report (c : Config) (id : String) (rule : Table) (rt : Value)
    (h1 : assocFind? c "rule" = some rule)
    (h2 : assocFind? rule "type" = some rt) :
    validate_alert_config c id = .ok ⟨id, (get_required_fields rt).filter
      (fun field => !(presentFields c).contains field)⟩ := by
  simp [validate_alert_config, h1, h2]

/-- C4: a config lacking a top-level `rule` table, or whose `rule` table
lacks a `type` field, fails with the fatal MissingRuleDeclaration error
and produces no report; any config with both proceeds to a report. -/
theorem missing_rule_declaration_fatal (c : Config) (id : String) :
    ((assocFind? c "rule" = none ∨
        (∃ rule, assocFind? c "rule" = some rule ∧ assocFind? rule "type" = none)) →
      validate_alert_config c id = .error .missingRuleDeclaration) ∧
    (∀ rule rt, assocFind? c "rule" = some rule → assocFind? rule "type" = some rt →
      ∃ rep, validate_alert_config c id = .ok rep) := by
  constructor
  · rintro (h | ⟨rule, h1, h2⟩)
    · simp [validate_alert_config, h]
    · simp [validate_alert_config, h1, h2]
  · intro rule rt h1 h2
    refine ⟨⟨id, (get_required_fields rt).filter
      (fun field => !(presentFields c).contains field)⟩, ?_⟩
    simp [validate_alert_config, h1, h2]

/-- Concrete instance of the MissingRuleDeclaration boundary: the empty
config fails fatally; a config with `rule.type` yields a report. -/
theorem missing_rule_declaration_fatal_w :
    validate_alert_config [] "alert_example.toml" = .error .missingRuleDeclaration ∧
    ∃ rep, validate_alert_config [("rule", [("type", .str "query")])]
      "alert_example.toml" = .ok rep :=
  ⟨(missing_rule_declaration_fatal [] "alert_example.toml").1 (Or.inl rfl),
   (missing_rule_declaration_fatal [("rule", [("type", .str "query")])]
     "alert_example.toml").2 [("type", .str "query")] (.str "query") rfl rfl⟩

/-- C6: `get_required_fields` returns the exact seven-field list for
`"eql"`; its `"threshold"` list has `threshold` and `query` but not
`language`; and for every rule type the five base fields come first. -/
theorem required_fields_by_type :
    get_required_fields (.str "eql") =
      ["description", "name", "risk_score", "severity", "type", "query", "language"] ∧
    "threshold" ∈ get_required_fields (.str "threshold") ∧
    "query" ∈ get_required_fields (.str "threshold") ∧
    "language" ∉ get_required_fields (.str "threshold") ∧
    ∀ rule_type : Value, (get_required_fields rule_type).take 5 = base_fields := by
  refine ⟨by decide, by decide, by decide, by decide, ?_⟩
  intro v
  unfold get_required_fields
  by_cases h1 : valueEqStr v "query" = true
  · rw [if_pos h1]
    rfl
  · rw [if_neg h1]
    by_cases h2 : valueEqStr v "eql" = true
    · rw [if_pos h2]
      rfl
    · rw [if_neg h2]
      by_cases h3 : valueEqStr v "threshold" = true
      · rw [if_pos h3]
        rfl
      · rw [if_neg h3]
        rfl

/-- C7: a rule type outside {query, eql, threshold} gets exactly the
base field list, trips the non-fatal advisory warning, and validation
proceeds to a report computed from the base fields only. -/
theorem unknown_rule_type_nonfatal (s : String)
    (hq : s ≠ "query") (he : s ≠ "eql") (ht : s ≠ "threshold")
    (c : Config) (id : String) (rule : Table)
    (h1 : assocFind? c "rule" = some rule)
    (h2 : assocFind? rule "type" = some (.str s)) :
    get_required_fields (.str s) = base_fields ∧
    unknown_rule_type_warning (.str s) = true ∧
    validate_alert_config c id =
      .ok ⟨id, base_fields.filter (fun field => !(presentFields c).contains field)⟩ := by
  have e1 : valueEqStr (.str s) "query" = false := by simp [valueEqStr, hq]
  have e2 : valueEqStr (.str s) "eql" = false := by simp [valueEqStr, he]
  have e3 : valueEqStr (.str s) "threshold" = false := by simp [valueEqStr, ht]
  have hreq : get_required_fields (.str s) = base_fields := by
    simp [get_required_fields, e1, e2, e3]
  refine ⟨hreq, ?_, ?_⟩
  · simp [unknown_rule_type_warning, e1, e2, e3]
  · simp [validate_alert_config, h1, h2, hreq]

/-- Concrete instance of the unrecognized-type advisory with rule type
`"machine_learning"`. -/
theorem unknown_rule_type_nonfatal_w :
    get_required_fields (.str "machine_learning") = base_fields ∧
    unknown_rule_type_warning (.str "machine_learning") = true ∧
    validate_alert_config [("rule", [("type", .str "machine_learning")])] "a.toml" =
      .ok ⟨"a.toml", base_fields.filter (fun field =>
        !(presentFields [("rule", [("type", .str "machine_learning")])]).contains field)⟩ :=
  unknown_rule_type_nonfatal "machine_learning" (by decide) (by decide) (by decide)
    [("rule", [("type", .str "machine_learning")])] "a.toml"
    [("type", .str "machine_learning")] rfl rfl

/-- C8: for a config meeting the precondition, the report's missing
fields are exactly the required fields absent from the union of every
top-level table's key set, in required order (presence in any table
counts); the spec's worked example yields `["query"]`. -/
theorem missing_fields_from_presence_union (c : Config) (id : String) (rule : Table)
    (rt : Value)
    (h1 : assocFind? c "rule" = some rule)
    (h2 : assocFind? rule "type" = some rt) :
    (∃ rep, validate_alert_config c id = .ok rep ∧
      rep.missing_fields = (get_required_fields rt).filter
        (fun field => !(presentFields c).contains field) ∧
      ∀ field, field ∈ rep.missing_fields ↔
        (field ∈ get_required_fields rt ∧ ∀ p ∈ c, field ∉ p.2.map Prod.fst)) ∧
    validate_alert_config exampleAlertConfig "alert_example.toml" =
      .ok ⟨"alert_example.toml", ["query"]⟩ := by
  constructor
  · refine ⟨⟨id, (get_required_fields rt).filter
        (fun field => !(presentFields c).contains field)⟩, ?_, rfl, ?_⟩
    · simp [validate_alert_config, h1, h2]
    · intro field
      rw [List.mem_filter]
      constructor
      · rintro ⟨hreq, hno⟩
        refine ⟨hreq, fun p hp hmem => ?_⟩
        have hin : field ∈ presentFields c :=
          mem_presentFields c p.1 field p.2 (by simpa using hp) hmem
        have hc : (presentFields c).contains field = true := List.elem_iff.mpr hin
        rw [hc] at hno
        cases hno
      · rintro ⟨hreq, hno⟩
        refine ⟨hreq, ?_⟩
        have hnotin : field ∉ presentFields c := by
          intro hmem
          obtain ⟨keys, hkeys, hfk⟩ := List.mem_flatten.mp hmem
          obtain ⟨p, hp, hpk⟩ := List.mem_map.mp hkeys
          exact hno p hp (hpk ▸ hfk)
        cases hb : (presentFields c).contains field with
        | false => simp [hb]
        | true => exact absurd (List.elem_iff.mp hb) hnotin
  · rfl

/-- Concrete instance of the presence-union semantics on the spec's
worked example. -/
theorem missing_fields_from_presence_union_w :
    (∃ rep, validate_alert_config exampleAlertConfig "alert_example.toml" = .ok rep ∧
      rep.missing_fields = (get_required_fields (.str "query")).filter
        (fun field => !(presentFields exampleAlertConfig).contains field) ∧
      ∀ field, field ∈ rep.missing_fields ↔
        (field ∈ get_required_fields (.str "query") ∧
          ∀ p ∈ exampleAlertConfig, field ∉ p.2.map Prod.fst)) ∧
    validate_alert_config exampleAlertConfig "alert_example.toml" =
      .ok ⟨"alert_example.toml", ["query"]⟩ :=
  missing_fields_from_presence_union exampleAlertConfig "alert_example.toml"
    [("type", .str "query"), ("name", .str "X"), ("description", .str "d"),
     ("risk_score", .int 1), ("severity", .str "low")] (.str "query") rfl rfl

/-- C9: under the precondition, `"type"` can never be reported missing,
because the `rule` table's own keys feed the flattened presence union. -/
theorem type_never_missing (c : Config) (id : String) (rule : Table) (rt : Value)
    (h1 : assocFind? c "rule" = some rule)
    (h2 : assocFind? rule "type" = some rt)
    (rep : ValidationReport)
    (hrep : validate_alert_config c id = .ok rep) :
    "type" ∉ rep.missing_fields := by
  have hpres : "type" ∈ presentFields c :=
    mem_presentFields c "rule" "type" rule (assocFind?_mem c "rule" rule h1)
      (List.mem_map.mpr ⟨("type", rt), assocFind?_mem rule "type" rt h2, rfl⟩)
  have hrep2 : rep = ⟨id, (get_required_fields rt).filter
      (fun field => !(presentFields c).contains field)⟩ := by
    rw [validate_eq_report c id rule rt h1 h2] at hrep
    injection hrep with h
    exact h.symm
  rw [hrep2]
  intro hmem
  have hfalse := (List.mem_filter.mp hmem).2
  have hc : (presentFields c).contains "type" = true := List.elem_iff.mpr hpres
  rw [hc] at hfalse
  cases hfalse

/-- Concrete instance: on the spec's worked example the missing list is
`["query"]`, which indeed does not contain `"type"`. -/
theorem type_never_missing_w :
    "type" ∉ (ValidationReport.mk "alert_example.toml" ["query"]).missing_fields :=
  type_never_missing exampleAlertConfig "alert_example.toml"
    [("type", .str "query"), ("name", .str "X"), ("description", .str "d"),
     ("risk_score", .int 1), ("severity", .str "low")] (.str "query") rfl rfl
    ⟨"alert_example.toml", ["query"]⟩ rfl

end DetectionEngineering
